import Mathlib

/-!
Verification of the LoFac commit-message parser (`parseCommitMessage` and its
helpers in `scripts/supercommit/parse.js`).

The JavaScript source is shallowly embedded below.  Strings are modelled as
`List Char`; the single token-extraction regular expression

  `(?:^|\s)NAME:\s*([^\s].*?)\s*(?=(?:\s(?:STATUS|LOG|COMMENT|PHASE|DATE|CAT|READY):|$))`

is embedded by its operational (backtracking) semantics, spelled out
definition by definition:

* `(?:^|\s)` : a candidate `NAME:` occurrence must sit at the start of the
  line or right after a whitespace character (`scanFirst` / `countFrom`
  carry a `prevWs` flag for this).
* `\s*` after the colon is greedy; since the following `[^\s]` demands a
  non-whitespace character, the value always starts at the first
  non-whitespace character after the colon (`matchValue`).
* `([^\s].*?)` is lazy: the capture is the shortest string after which the
  greedy `\s*` plus the lookahead `(?=\s(?:ALT):|$)` can succeed.  The
  lookahead succeeds at a position iff from there one can reach, through
  whitespace only, either the end of the line or a whitespace character
  followed by a reserved `NAME:`; this reachability test is
  `boundaryReachable`, and the lazy capture loop is `captureRest`.
* `.` does not match the line terminators `\n`, `\r`, U+2028, U+2029, so a
  capture that would have to cross one of those fails (`captureRest`
  returns `none` and the scan resumes one character further).
* For the global (`g`) use in `onlyOne`, matching resumes at the end of the
  previous match; the greedy trailing `\s*` stops just before the
  whitespace consumed by the lookahead (`matchTail`), so the whitespace
  introducing the next token remains available to the next match.
-/

/-- JavaScript `\s` (WhiteSpace ∪ LineTerminator, as used by `RegExp` and
`String.prototype.trim`). -/
def isWs (c : Char) : Bool :=
  c == ' ' || c == '\t' || c == '\n' || c == '\r' || c == '\x0b' || c == '\x0c' ||
  c == '\u00A0' || c == '\u1680' ||
  (decide (0x2000 ≤ c.toNat) && decide (c.toNat ≤ 0x200A)) ||
  c == '\u2028' || c == '\u2029' || c == '\u202F' || c == '\u205F' ||
  c == '\u3000' || c == '\uFEFF'

/-- A JavaScript line terminator (the characters `.` does not match). -/
def isLineTerm (c : Char) : Bool :=
  c == '\n' || c == '\r' || c == '\u2028' || c == '\u2029'

/-- JavaScript `String.prototype.trim`. -/
def trimList (l : List Char) : List Char :=
  ((l.dropWhile isWs).reverse.dropWhile isWs).reverse

/-- JavaScript `String.prototype.trimEnd`. -/
def trimEndWs (l : List Char) : List Char :=
  (l.reverse.dropWhile isWs).reverse

/-- Source: `const TOKEN_NAMES = ["STATUS", "LOG", "COMMENT", "PHASE", "DATE", "CAT", "READY"];` -/
def TOKEN_NAMES : List String :=
  ["STATUS", "LOG", "COMMENT", "PHASE", "DATE", "CAT", "READY"]

/-- Does some reserved `NAME:` start here?  (The `(?:STATUS|LOG|...):` part of
the lookahead.) -/
def tokAt (l : List Char) : Bool :=
  TOKEN_NAMES.any fun n => (n.data ++ [':']).isPrefixOf l

/-- The lookahead `(?=(?:\s(?:ALT):|$))` preceded by the greedy `\s*` can
succeed from this position: through whitespace only, one can reach the end of
the line or a whitespace character followed by a reserved `NAME:`. -/
def boundaryReachable : List Char → Bool
  | [] => true
  | c :: rest => isWs c && (tokAt rest || boundaryReachable rest)

/-- The greedy trailing `\s*` of a successful match: consume whitespace but
leave the last whitespace character before a following reserved token for the
lookahead's `\s` (so it is still available to the next match of a global
regex); consume everything when only whitespace remains.  Only called at
positions where `boundaryReachable` holds. -/
def matchTail (lp : List Char) : List Char :=
  let after := lp.dropWhile isWs
  if after.isEmpty then []
  else lp.drop ((lp.takeWhile isWs).length - 1)

/-- The lazy `.*?` part of the capture: extend the capture one character at a
time until the boundary lookahead can succeed.  Returns the rest of the
capture together with the remainder of the line after the whole match (for
global-regex resumption), or `none` when the capture would have to cross a
line terminator (which `.` cannot match). -/
def captureRest : List Char → Option (List Char × List Char)
  | [] => some ([], [])
  | c :: rest =>
    if boundaryReachable (c :: rest) then some ([], matchTail (c :: rest))
    else if isLineTerm c then none
    else (captureRest rest).map fun p => (c :: p.1, p.2)

/-- The part `\s*([^\s]...)` after `NAME:`: skip the whitespace greedily, require one
non-whitespace character, then capture lazily up to the boundary. -/
def matchValue (l : List Char) : Option (List Char × List Char) :=
  match l.dropWhile isWs with
  | [] => none
  | c :: rest => (captureRest rest).map fun p => (c :: p.1, p.2)

/-- If `l` starts with `name ++ ":"`, return what follows. -/
def stripNameColon (name : List Char) (l : List Char) : Option (List Char) :=
  if (name ++ [':']).isPrefixOf l then some (l.drop (name.length + 1)) else none

/-- First match of the token regex over the line (the non-global use in
`getToken`): try each position left to right; a `NAME:` occurrence is only a
candidate at the line start or after whitespace (`prevWs`), and a candidate
whose value part fails is skipped, the scan resuming one character further. -/
def scanFirst (name : List Char) : Bool → List Char → Option (List Char)
  | _, [] => none
  | prevWs, c :: rest =>
    match (if prevWs then (stripNameColon name (c :: rest)).bind matchValue
           else none) with
    | some p => some p.1
    | none => scanFirst name (isWs c) rest

/-- Number of matches of the token regex with the `g` flag (the use in
`onlyOne`): after a match, the scan resumes at the match end, where the
`(?:^|\s)` prefix can no longer look at earlier characters (`prevWs := false`).
The fuel argument (instantiated with `length + 1`) makes the recursion
structural; every step strictly shrinks the list, so it never runs out. -/
def countFrom (name : List Char) : Nat → Bool → List Char → Nat
  | 0, _, _ => 0
  | _ + 1, _, [] => 0
  | fuel + 1, prevWs, c :: rest =>
    match (if prevWs then (stripNameColon name (c :: rest)).bind matchValue
           else none) with
    | some p => 1 + countFrom name fuel false p.2
    | none => countFrom name fuel (isWs c) rest

/-- Embeds `getToken` of the source: first match's capture, `.trim()`ed. -/
def getToken (name : String) (line : List Char) : Option String :=
  (scanFirst name.data true line).map fun cap => String.mk (trimList cap)

/-- The number of hits `onlyOne` of the source counts for one name. -/
def countMatches (name : String) (line : List Char) : Nat :=
  countFrom name.data (line.length + 1) true line

/-! ### Character classes and digit values -/

/-- Regex `\d` (ASCII digits). -/
def isDigit (c : Char) : Bool := c.isDigit

/-- Regex `[A-Z]`. -/
def isUpperAZ (c : Char) : Bool := decide ('A' ≤ c) && decide (c ≤ 'Z')

/-- Regex `[A-Z0-9]`. -/
def isKeyChar (c : Char) : Bool := isUpperAZ c || isDigit c

/-- Regex word character (for `\b`): `[A-Za-z0-9_]`. -/
def isWordChar (c : Char) : Bool :=
  isUpperAZ c || (decide ('a' ≤ c) && decide (c ≤ 'z')) || isDigit c || c == '_'

/-- Numeric value of a digit string (`parseInt(s, 10)` on an all-digit
string). -/
def digitsToNat (l : List Char) : Nat :=
  l.foldl (fun a c => a * 10 + (c.toNat - 48)) 0

/-! ### Line sanitizing -/

/-- The split `String(message).split(/\r?\n/)[0]`: everything before the first `\n`,
with an immediately preceding `\r` belonging to the separator. -/
def firstLineOf : List Char → List Char
  | [] => []
  | '\r' :: '\n' :: _ => []
  | '\n' :: _ => []
  | c :: rest => c :: firstLineOf rest

/-- Embeds `sanitizeFirstLine` of the source: first line, strip one leading BOM, a
leading run of zero-width characters, leading whitespace, then `trimEnd`. -/
def sanitizeFirstLine (message : List Char) : List Char :=
  let rawFirst := firstLineOf message
  let s1 := match rawFirst with
            | '\uFEFF' :: r => r
            | r => r
  let s2 := s1.dropWhile fun c => c == '\u200B' || c == '\u200C' || c == '\u200D'
  let s3 := s2.dropWhile isWs
  trimEndWs s3

/-! ### Issue key -/

/-- The match `firstLine.match(/^([A-Z][A-Z0-9]{1,9}-\d+)\b/)`.  Since `-` is not in
`[A-Z0-9]`, the greedy `{1,9}` can only succeed by taking the whole maximal
`[A-Z0-9]` run (of length at most 9); `\d+` is likewise maximal, and `\b`
then requires the next character, if any, to be a non-word character. -/
def matchIssueKey : List Char → Option (List Char)
  | [] => none
  | c :: rest =>
    if isUpperAZ c then
      let run := rest.takeWhile isKeyChar
      let rest2 := rest.dropWhile isKeyChar
      if decide (1 ≤ run.length) && decide (run.length ≤ 9) then
        match rest2 with
        | '-' :: rest3 =>
          let ds := rest3.takeWhile isDigit
          let rest4 := rest3.dropWhile isDigit
          if ds.isEmpty then none
          else
            match rest4 with
            | [] => some (c :: run ++ '-' :: ds)
            | d :: _ => if isWordChar d then none else some (c :: run ++ '-' :: ds)
        | _ => none
      else none
    else none

/-! ### Dates

`isValidISODate` of the source builds `new Date(Date.UTC(y, mo - 1, d))` and
then compares `getUTCFullYear/getUTCMonth/getUTCDate` with `y / mo - 1 / d`.
`Date.UTC` first folds the month into the year (floor division), then
interprets the day as an offset from the first of that month, in days since
the epoch; the `getUTC*` accessors convert the day count back to a proleptic
Gregorian date.  `daysFromCivil`/`civilFromDays` are these two standard
conversions (days relative to 1970-01-01). -/

/-- Days since 1970-01-01 of a proleptic Gregorian date; only used with
`d = 1` and a month in `[1, 12]`. -/
def daysFromCivil (y m d : Int) : Int :=
  let y2 := if m ≤ 2 then y - 1 else y
  let era := y2.fdiv 400
  let yoe := y2 - era * 400
  let mp := if 2 < m then m - 3 else m + 9
  let doy := (153 * mp + 2) / 5 + d - 1
  let doe := yoe * 365 + yoe / 4 - yoe / 100 + doy
  era * 146097 + doe - 719468

/-- Proleptic Gregorian date (year, month `1..12`, day `1..31`) of a count of
days since 1970-01-01. -/
def civilFromDays (z0 : Int) : Int × Int × Int :=
  let z := z0 + 719468
  let era := z.fdiv 146097
  let doe := z - era * 146097
  let yoe := (doe - doe / 1460 + doe / 36524 - doe / 146096) / 365
  let y := yoe + era * 400
  let doy := doe - (365 * yoe + yoe / 4 - yoe / 100)
  let mp := (5 * doy + 2) / 153
  let d := doy - (153 * mp + 2) / 5 + 1
  let m := if mp < 10 then mp + 3 else mp - 9
  (if m ≤ 2 then y + 1 else y, m, d)

/-- The test `/^\d{4}-\d{2}-\d{2}$/.test(s)` (also the pattern inside
`isValidISODate`). -/
def datePatternOk (s : List Char) : Bool :=
  match s with
  | [y1, y2, y3, y4, h1, m1, m2, h2, d1, d2] =>
    isDigit y1 && isDigit y2 && isDigit y3 && isDigit y4 && h1 == '-' &&
    isDigit m1 && isDigit m2 && h2 == '-' && isDigit d1 && isDigit d2
  | _ => false

/-- Embeds `isValidISODate` of the source: the pattern must match, and
`Date.UTC(y, mo - 1, d)` must round-trip back to year `y`, month `mo - 1`,
day `d` through the `getUTC*` accessors.  `Date.UTC` first applies the
ECMAScript MakeFullYear rule to the year argument — an integer year from 0
to 99 is mapped to 1900 + year — and only then folds the month into the
(mapped) year.  The accessors are compared against the original `y`, so a
date whose four-digit year is below 0100 always fails the round-trip (e.g.
`getUTCFullYear()` of `"0099-01-15"` is 1999, not 99). -/
def isValidISODate (s : List Char) : Bool :=
  if datePatternOk s then
    let y : Int := digitsToNat (s.take 4)
    let mo : Int := digitsToNat ((s.drop 5).take 2)
    let d : Int := digitsToNat ((s.drop 8).take 2)
    let yr := if decide (0 ≤ y) && decide (y ≤ 99) then 1900 + y else y
    let m0 := mo - 1
    let ym := yr + m0.fdiv 12
    let mm := m0.fmod 12
    let z := daysFromCivil ym (mm + 1) 1 + d - 1
    let c := civilFromDays z
    decide (c.1 = y) && decide (c.2.1 - 1 = m0) && decide (c.2.2 = d)
  else false

/-! ### Small helpers of the source -/

/-- Errors raised by the parser: `format` for errors raised through
`failFormat` (whose `Error` message is `"Super Commit format: " ++ msg`) and
`calendar` for the plain `Error` thrown on a pattern-valid but non-existent
calendar date. -/
inductive ParseError where
  | format (msg : String)
  | calendar (msg : String)
deriving DecidableEq, Repr

/-- Embeds `failFormat` of the source. -/
def failFormat {α : Type} (msg : String) : Except ParseError α :=
  .error (.format ("Super Commit format: " ++ msg))

/-- Embeds `tidy` of the source: `typeof v === "string" && v.trim().length ? v.trim() : null`. -/
def tidy : Option String → Option String
  | some s =>
    let t := trimList s.data
    if t.isEmpty then none else some (String.mk t)
  | none => none

/-- Embeds `parseReady` of the source.  (`Char.toLower` lowercases ASCII letters,
which matches `toLowerCase` on the vocabularies compared against.) -/
def parseReady : Option String → Option Bool
  | none => none
  | some v =>
    let s := String.mk ((trimList v.data).map Char.toLower)
    if ["y", "yes", "true", "1"].contains s then some true
    else if ["n", "no", "false", "0"].contains s then some false
    else none

/-- The defensive guard `status !== null && !status.trim()`. -/
def statusEmpty : Option String → Bool
  | some s => (trimList s.data).isEmpty
  | none => false

/-- JavaScript truthiness of a `string | null` value. -/
def truthy : Option String → Bool
  | some s => !s.isEmpty
  | none => false

/-! ### LOG parsing -/

/-- The index `rawLog.indexOf("@")` and the split around the first occurrence:
`some (before, after)` when `@` occurs, `none` otherwise. -/
def splitFirstAtChar (ch : Char) : List Char → Option (List Char × List Char)
  | [] => none
  | c :: rest =>
    if c == ch then some ([], rest)
    else (splitFirstAtChar ch rest).map fun p => (c :: p.1, p.2)

/-- The match `timePart.match(/^(\d+(?:\.\d+)?)h$/i)`, with `parseFloat` of the capture
as an exact rational.  (All duration values the claims mention are exactly
representable IEEE doubles, on which the float and rational semantics
agree.) -/
def matchDecimalHours (l : List Char) : Option ℚ :=
  let ds := l.takeWhile isDigit
  let rest := l.dropWhile isDigit
  if ds.isEmpty then none
  else
    match rest with
    | ['h'] => some (digitsToNat ds : ℚ)
    | ['H'] => some (digitsToNat ds : ℚ)
    | '.' :: rest2 =>
      let fs := rest2.takeWhile isDigit
      let rest3 := rest2.dropWhile isDigit
      if fs.isEmpty then none
      else
        match rest3 with
        | ['h'] => some ((digitsToNat ds : ℚ) + (digitsToNat fs : ℚ) / (10 : ℚ) ^ fs.length)
        | ['H'] => some ((digitsToNat ds : ℚ) + (digitsToNat fs : ℚ) / (10 : ℚ) ^ fs.length)
        | _ => none
    | _ => none

/-- The match `timePart.match(/^(\d+):(\d{1,2})$/)` with both captures `parseInt`ed. -/
def matchHColonMM (l : List Char) : Option (Nat × Nat) :=
  let ds := l.takeWhile isDigit
  let rest := l.dropWhile isDigit
  if ds.isEmpty then none
  else
    match rest with
    | [':', a] => if isDigit a then some (digitsToNat ds, digitsToNat [a]) else none
    | [':', a, b] =>
      if isDigit a && isDigit b then some (digitsToNat ds, digitsToNat [a, b]) else none
    | _ => none

/-- The match `timePart.match(/^(\d+)m$/i)` with the capture `parseInt`ed. -/
def matchMinutes (l : List Char) : Option Nat :=
  let ds := l.takeWhile isDigit
  if ds.isEmpty then none
  else
    match l.dropWhile isDigit with
    | ['m'] => some (digitsToNat ds)
    | ['M'] => some (digitsToNat ds)
    | _ => none

/-- Lines 112-134 of the source: the three duration grammars tried in order
(decimal hours, `h:mm` with the `mins >= 60` guard, minutes), the first match
giving the hours value. -/
def parseLogHours (timePart : List Char) : Except ParseError ℚ :=
  match matchDecimalHours timePart with
  | some q => .ok q
  | none =>
    match matchHColonMM timePart with
    | some hm =>
      if 60 ≤ hm.2 then failFormat "LOG minutes must be < 60 for h:mm."
      else .ok ((hm.1 : ℚ) + (hm.2 : ℚ) / 60)
    | none =>
      match matchMinutes timePart with
      | some mins => .ok ((mins : ℚ) / 60)
      | none => failFormat "LOG must be 2h@YYYY-MM-DD, 1.5h, 1:30, or 90m."

/-- The two-stage date validation block the source repeats verbatim for
`datePart` and `dateToken`: pattern check (`FormatError`) then calendar check
(`CalendarError`). -/
def validateYmd (d : List Char) : Except ParseError Unit :=
  if !datePatternOk d then failFormat "date must be yyyy-mm-dd."
  else if !isValidISODate d then
    .error (.calendar "LOG date must be a valid calendar date (yyyy-mm-dd).")
  else .ok ()

/-- The `else if (dateToken) { ... } else { logDate = null; }` fallback used
both with and without a LOG token (`hours` is the already-computed
`logHours`). -/
def fallbackDate (dateToken : Option String) (hours : Option ℚ) :
    Except ParseError (Option ℚ × Option String) :=
  match dateToken with
  | some dt =>
    if !dt.isEmpty then
      match validateYmd dt.data with
      | .error e => .error e
      | .ok _ => .ok (hours, some dt)
    else .ok (hours, none)
  | none => .ok (hours, none)

/-- Lines 136-159 of the source, after the duration grammar has produced
`eh`: the positivity guard, then the inline `datePart` validation (when
truthy), else the `dateToken` fallback. -/
def afterHours (eh : Except ParseError ℚ) (datePart : Option (List Char))
    (dateToken : Option String) : Except ParseError (Option ℚ × Option String) :=
  match eh with
  | .error e => .error e
  | .ok hours =>
    if !decide (0 < hours) then failFormat "LOG hours must be a positive number."
    else
      match datePart with
      | some dp =>
        if !dp.isEmpty then
          match validateYmd dp with
          | .error e => .error e
          | .ok _ => .ok (some hours, some (String.mk dp))
        else fallbackDate dateToken (some hours)
      | none => fallbackDate dateToken (some hours)

/-- Lines 97-173 of the source: the whole `LOG`/`DATE` block, producing
`(logHours, logDate)`.  `rawLog` and `dateToken` are the `tidy`ed token
values (the `if (rawLog)` truthiness test also covers the empty string). -/
def parseLog (rawLog dateToken : Option String) :
    Except ParseError (Option ℚ × Option String) :=
  match rawLog with
  | some raw =>
    if raw.isEmpty then fallbackDate dateToken none
    else
      match splitFirstAtChar '@' raw.data with
      | none => afterHours (parseLogHours raw.data) none dateToken
      | some tpRest => afterHours (parseLogHours tpRest.1) (some (trimList tpRest.2)) dateToken
  | none => fallbackDate dateToken none

/-! ### The parser -/

/-- The record `parseCommitMessage` returns. -/
structure ParsedDirectives where
  issue : String
  issueKey : String
  status : Option String
  logHours : Option ℚ
  logDate : Option String
  comment : Option String
  phase : Option String
  ready : Option Bool
  firstLine : String
deriving DecidableEq, Repr

/-- Embeds `parseCommitMessage` of the source.  The input is always a string here, so
the `typeof` arm of the emptiness check is omitted; `TOKEN_NAMES.forEach(onlyOne)`
raises on the first name (in list order) with more than one regex hit. -/
def parseCommitMessage (message : String) : Except ParseError ParsedDirectives :=
  if (trimList message.data).isEmpty then failFormat "commit message is empty."
  else
    let firstLine := sanitizeFirstLine message.data
    match matchIssueKey firstLine with
    | none => failFormat "missing or invalid JIRA issue key at start (e.g., ABC-123)."
    | some key =>
      match TOKEN_NAMES.find? (fun n => decide (1 < countMatches n firstLine)) with
      | some n => failFormat ("only one " ++ n ++ " token is allowed.")
      | none =>
        let issue := String.mk key
        let status := tidy (getToken "STATUS" firstLine)
        let comment := tidy (getToken "COMMENT" firstLine)
        let phase0 := tidy (getToken "PHASE" firstLine)
        let catAlias := tidy (getToken "CAT" firstLine)
        let phase := match phase0, catAlias with
                     | none, some c => some c
                     | p, _ => p
        let dateToken := tidy (getToken "DATE" firstLine)
        let readyToken := tidy (getToken "READY" firstLine)
        let ready := parseReady readyToken
        let rawLog := tidy (getToken "LOG" firstLine)
        match parseLog rawLog dateToken with
        | .error e => .error e
        | .ok hd =>
          if statusEmpty status then failFormat "STATUS value cannot be empty."
          else .ok { issue := issue, issueKey := issue, status := status,
                     logHours := hd.1, logDate := hd.2, comment := comment,
                     phase := phase, ready := ready,
                     firstLine := String.mk firstLine }

/-! ### Permutations (for the token-order-independence claim) -/

/-- All ways to insert an element into a list. -/
def insertEverywhere (x : String) : List String → List (List String)
  | [] => [[x]]
  | y :: ys => (x :: y :: ys) :: (insertEverywhere x ys).map (y :: ·)

/-- All permutations of a list (structurally recursive, so that it evaluates
definitionally). -/
def permsOf : List String → List (List String)
  | [] => [[]]
  | x :: xs => (permsOf xs).flatMap (insertEverywhere x)

theorem mem_insertEverywhere {x : String} {l m : List String} :
    m ∈ insertEverywhere x l ↔ ∃ l1 l2, l = l1 ++ l2 ∧ m = l1 ++ x :: l2 := by
  induction l generalizing m with
  | nil =>
    simp only [insertEverywhere, List.mem_singleton]
    constructor
    · rintro rfl; exact ⟨[], [], rfl, rfl⟩
    · rintro ⟨l1, l2, h1, rfl⟩
      have h2 : l1 = [] ∧ l2 = [] := List.append_eq_nil.mp h1.symm
      rw [h2.1, h2.2]; rfl
  | cons y ys ih =>
    simp only [insertEverywhere, List.mem_cons, List.mem_map, ih]
    constructor
    · rintro (rfl | ⟨m2, ⟨l1, l2, rfl, rfl⟩, rfl⟩)
      · exact ⟨[], y :: ys, rfl, rfl⟩
      · exact ⟨y :: l1, l2, rfl, rfl⟩
    · rintro ⟨l1, l2, h1, rfl⟩
      cases l1 with
      | nil => cases h1; exact Or.inl rfl
      | cons a l1 =>
        cases h1
        exact Or.inr ⟨l1 ++ x :: l2, ⟨l1, l2, rfl, rfl⟩, rfl⟩

/-- `permsOf` is complete: its members are exactly the permutations. -/
theorem mem_permsOf {l m : List String} : m ∈ permsOf l ↔ m.Perm l := by
  induction l generalizing m with
  | nil => simp [permsOf, List.perm_nil]
  | cons x xs ih =>
    simp only [permsOf, List.mem_flatMap, mem_insertEverywhere]
    constructor
    · rintro ⟨p, hp, l1, l2, rfl, rfl⟩
      exact (List.perm_middle).trans ((ih.mp hp).cons x)
    · intro hm
      have hx : x ∈ m := hm.mem_iff.mpr (List.mem_cons_self x xs)
      obtain ⟨l1, l2, rfl⟩ := List.append_of_mem hx
      refine ⟨l1 ++ l2, ih.mpr ?_, l1, l2, rfl, rfl⟩
      exact (List.perm_middle.symm.trans hm).cons_inv

/-- The four tokens of the order-independence example. -/
def c5Tokens : List String :=
  ["COMMENT:Refactor", "LOG:2.5h@2025-10-01", "STATUS:In Progress", "PHASE:Development"]

/-- The 24 messages: the issue key followed by each permutation of the four
tokens, space-separated. -/
def c5Messages : List String :=
  (permsOf c5Tokens).map fun p => "PAY-101 " ++ String.intercalate " " p

/-- The five field values (status, logHours, logDate, comment, phase) of a
parse result, `none` on a parse error. -/
def fieldsOf (e : Except ParseError ParsedDirectives) :
    Option (Option String × Option ℚ × Option String × Option String × Option String) :=
  match e with
  | .ok r => some (r.status, r.logHours, r.logDate, r.comment, r.phase)
  | .error _ => none

/-! ### The claims -/

/-- C1: token-value capture is bounded only by reserved token names.  For the
input `"ABC-1 COMMENT:Fix HTTP:500 retry handler LOG:1h@2025-10-13"`,
`parseCommitMessage` succeeds with comment `"Fix HTTP:500 retry handler"`
(the embedded `HTTP:500` is not treated as a token boundary), logHours `1`,
and logDate `"2025-10-13"`. -/
theorem c1_boundary_safety :
    parseCommitMessage "ABC-1 COMMENT:Fix HTTP:500 retry handler LOG:1h@2025-10-13"
      = .ok { issue := "ABC-1", issueKey := "ABC-1", status := none,
              logHours := some 1, logDate := some "2025-10-13",
              comment := some "Fix HTTP:500 retry handler", phase := none,
              ready := none,
              firstLine := "ABC-1 COMMENT:Fix HTTP:500 retry handler LOG:1h@2025-10-13" } := by
  rfl

/-- C2 (counterexample): on `"ABC-1 STATUS: LOG:1h"` the status field is not
null, refuting the claim that a token with no non-whitespace value before the
next token is treated as absent: the greedy `\s*` after `STATUS:` consumes
the separating space, so the following `LOG:` is no longer preceded by
available whitespace and the capture swallows `LOG:1h`. -/
theorem c2_status_not_null :
    (parseCommitMessage "ABC-1 STATUS: LOG:1h").map (fun r => r.status) ≠ .ok none := by
  have e : (parseCommitMessage "ABC-1 STATUS: LOG:1h").map (fun r => r.status)
      = .ok (some "LOG:1h") := by with_unfolding_all rfl
  rw [e]
  simp

/-- C2 (amended): a recognized token name whose colon is followed by no
non-whitespace character up to the end of the line does not match and is
treated as absent (field null, no error) — but when non-whitespace text
occurs later on the line, the whitespace after the colon is consumed and the
following text, even another token, becomes the captured value.  So
`"ABC-1 STATUS: LOG:1h"` parses with status `"LOG:1h"` (not null) and the
LOG token is still extracted normally (logHours 1), while `"ABC-1 STATUS:"`
and `"ABC-1 LOG:1h STATUS:"` parse with status null and no error. -/
theorem c2_empty_value_token :
    (parseCommitMessage "ABC-1 STATUS: LOG:1h").map (fun r => (r.status, r.logHours))
      = .ok (some "LOG:1h", some 1)
    ∧ (parseCommitMessage "ABC-1 STATUS:").map (fun r => r.status) = .ok none
    ∧ (parseCommitMessage "ABC-1 LOG:1h STATUS:").map (fun r => (r.status, r.logHours))
      = .ok (none, some 1) := by
  refine ⟨?_, ?_, ?_⟩ <;> with_unfolding_all rfl

/-- C3 (counterexample): a LOG value can contain an `@` separator and still
parse without any date error: for `"ABC-1 LOG:1h@"` the substring after the
`@` is empty, `if (datePart)` is falsy, and parsing succeeds with logHours 1
and logDate null — refuting the claim that every LOG value containing `@`
must have a yyyy-mm-dd match after it or fail with FormatError. -/
theorem c3_empty_inline_date :
    (parseCommitMessage "ABC-1 LOG:1h@").map (fun r => (r.logHours, r.logDate))
      = .ok (some 1, none)
    ∧ parseCommitMessage "ABC-1 LOG:1h@" ≠ failFormat "date must be yyyy-mm-dd." := by
  constructor
  · with_unfolding_all rfl
  · have e : parseCommitMessage "ABC-1 LOG:1h@"
        = .ok { issue := "ABC-1", issueKey := "ABC-1", status := none,
                logHours := some 1, logDate := none, comment := none,
                phase := none, ready := none, firstLine := "ABC-1 LOG:1h@" } := by
      with_unfolding_all rfl
    rw [e]
    simp [failFormat]

/-- C3 (amended): for a LOG token value of the form `time@date` whose time
part parses to a positive duration and whose date part is nonempty after
trimming, the date part must match the fixed-width pattern yyyy-mm-dd, else
parsing fails with FormatError ("date must be yyyy-mm-dd"); if it matches
the pattern but does not denote a real calendar date, parsing fails with the
distinct CalendarError.  Concretely, `"LOG:1h@2025-02-30"` raises
CalendarError and `"LOG:1h@2025/01/01"` raises FormatError.  (When the part
after `@` is empty after trimming, the inline date is treated as absent.) -/
theorem c3_log_date_two_stage (raw : String) (dateTok : Option String)
    (tp rest : List Char) (q : ℚ)
    (hraw : raw.isEmpty = false)
    (hsplit : splitFirstAtChar '@' raw.data = some (tp, rest))
    (hq : parseLogHours tp = .ok q) (hpos : 0 < q)
    (hne : (trimList rest).isEmpty = false) :
    (datePatternOk (trimList rest) = false →
      parseLog (some raw) dateTok = failFormat "date must be yyyy-mm-dd.")
    ∧ (datePatternOk (trimList rest) = true → isValidISODate (trimList rest) = false →
      parseLog (some raw) dateTok
        = .error (.calendar "LOG date must be a valid calendar date (yyyy-mm-dd)."))
    ∧ parseCommitMessage "ABC-1 LOG:1h@2025-02-30"
        = .error (.calendar "LOG date must be a valid calendar date (yyyy-mm-dd).")
    ∧ parseCommitMessage "ABC-1 LOG:1h@2025/01/01"
        = .error (.format "Super Commit format: date must be yyyy-mm-dd.") := by
  refine ⟨?_, ?_, by with_unfolding_all rfl, by with_unfolding_all rfl⟩
  all_goals
    unfold parseLog
    simp only [hraw, hsplit, Bool.false_eq_true, if_false]
    unfold afterHours
    simp only [hq, hpos, decide_eq_true_eq, Bool.not_true, Bool.false_eq_true, if_false, hne,
      Bool.not_false, if_true]
  · intro hpat
    unfold validateYmd
    simp [hpat, failFormat]
  · intro hpat hcal
    unfold validateYmd
    simp [hpat, hcal, failFormat]

/-- C3 witness: the general statement applied to the LOG value
`"1h@2025/01/01"` (wrong pattern, FormatError). -/
theorem c3_log_date_two_stage_witness :
    parseLog (some "1h@2025/01/01") none = failFormat "date must be yyyy-mm-dd." :=
  (c3_log_date_two_stage "1h@2025/01/01" none "1h".data "2025/01/01".data 1
    (by with_unfolding_all rfl) (by with_unfolding_all rfl) (by with_unfolding_all rfl)
    (by norm_num) (by with_unfolding_all rfl)).1 (by with_unfolding_all rfl)

/-- C4: each of the seven token names may appear at most once per line: for
any message that passes the emptiness and issue-key checks, if some token
name has more than one boundary-bounded match (the per-name check running
independently over all seven names, in their fixed order, before any token
values are used), parsing fails with the FormatError naming the first such
token: "only one NAME token is allowed.". -/
theorem c4_duplicate_token (msg : String) (name : String) (k : List Char)
    (hne : (trimList msg.data).isEmpty = false)
    (hkey : matchIssueKey (sanitizeFirstLine msg.data) = some k)
    (hdup : TOKEN_NAMES.find?
        (fun n => decide (1 < countMatches n (sanitizeFirstLine msg.data))) = some name) :
    parseCommitMessage msg = failFormat ("only one " ++ name ++ " token is allowed.") := by
  unfold parseCommitMessage
  simp only [hne, hkey, hdup, Bool.false_eq_true, if_false]

/-- C4 witness: a message with two STATUS tokens fails with the FormatError
naming STATUS. -/
theorem c4_duplicate_token_witness :
    parseCommitMessage "ABC-1 STATUS:a STATUS:b"
      = failFormat "only one STATUS token is allowed." :=
  c4_duplicate_token "ABC-1 STATUS:a STATUS:b" "STATUS" "ABC-1".data
    (by with_unfolding_all rfl) (by with_unfolding_all rfl) (by with_unfolding_all rfl)

/-- C5: token order independence.  Every permutation of the four tokens of
`"PAY-101 COMMENT:Refactor LOG:2.5h@2025-10-01 STATUS:In Progress PHASE:Development"`
(with the issue key kept first) parses to the same field values:
status "In Progress", logHours 2.5, logDate "2025-10-01", comment
"Refactor", phase "Development". -/
theorem c5_token_order_independence (p : List String) (hp : p.Perm c5Tokens) :
    fieldsOf (parseCommitMessage ("PAY-101 " ++ String.intercalate " " p))
      = some (some "In Progress", some (5 / 2), some "2025-10-01",
          some "Refactor", some "Development") := by
  have hm : ("PAY-101 " ++ String.intercalate " " p) ∈ c5Messages :=
    List.mem_map_of_mem _ (mem_permsOf.mpr hp)
  have hmap : c5Messages.map (fun m => fieldsOf (parseCommitMessage m))
      = List.replicate 24 (some (some "In Progress", some (5 / 2), some "2025-10-01",
          some "Refactor", some "Development")) := by
    with_unfolding_all rfl
  exact List.eq_of_mem_replicate
    (hmap ▸ List.mem_map_of_mem (fun m => fieldsOf (parseCommitMessage m)) hm)

/-- C5 witness: the general statement applied to one nontrivial permutation
of the four tokens. -/
theorem c5_token_order_independence_witness :
    fieldsOf (parseCommitMessage ("PAY-101 " ++ String.intercalate " "
        ["PHASE:Development", "STATUS:In Progress", "LOG:2.5h@2025-10-01",
         "COMMENT:Refactor"]))
      = some (some "In Progress", some (5 / 2), some "2025-10-01",
          some "Refactor", some "Development") :=
  c5_token_order_independence
    ["PHASE:Development", "STATUS:In Progress", "LOG:2.5h@2025-10-01", "COMMENT:Refactor"]
    (by decide)

/-- C6: the three LOG duration forms are interchangeable for equal
durations: `"90m"`, `"1:30"` and `"1.5h"` all give logHours 1.5; in the
h:mm form the minutes must be below 60, else parsing fails with the
FormatError "LOG minutes must be < 60 for h:mm.". -/
theorem c6_log_grammar_equivalence :
    (parseCommitMessage "ABC-1 LOG:90m").map (fun r => r.logHours) = .ok (some (3 / 2))
    ∧ (parseCommitMessage "ABC-1 LOG:1:30").map (fun r => r.logHours) = .ok (some (3 / 2))
    ∧ (parseCommitMessage "ABC-1 LOG:1.5h").map (fun r => r.logHours) = .ok (some (3 / 2))
    ∧ parseCommitMessage "ABC-1 LOG:1:75"
        = .error (.format "Super Commit format: LOG minutes must be < 60 for h:mm.") := by
  refine ⟨?_, ?_, ?_, ?_⟩ <;> with_unfolding_all rfl

/-- C7: with no LOG token, a standalone DATE token gets the same two-stage
validation: a wrong pattern raises FormatError, a pattern-valid non-date
raises CalendarError, and on success logDate is the DATE value with logHours
null; with neither LOG date nor DATE token, logDate is null. -/
theorem c7_standalone_date :
    (parseCommitMessage "ABC-1 DATE:2025-10-13").map (fun r => (r.logHours, r.logDate))
      = .ok (none, some "2025-10-13")
    ∧ parseCommitMessage "ABC-1 DATE:2025/01/01"
        = .error (.format "Super Commit format: date must be yyyy-mm-dd.")
    ∧ parseCommitMessage "ABC-1 DATE:2025-02-30"
        = .error (.calendar "LOG date must be a valid calendar date (yyyy-mm-dd).")
    ∧ (parseCommitMessage "ABC-1").map (fun r => (r.logHours, r.logDate)) = .ok (none, none) := by
  refine ⟨?_, ?_, ?_, ?_⟩ <;> with_unfolding_all rfl

/-- C8: the phase field is the trimmed PHASE value when present, else the
trimmed CAT value when present, else null; having both PHASE and CAT is
legal and PHASE wins. -/
theorem c8_phase_cat_resolution :
    (parseCommitMessage "ABC-1 PHASE:Dev CAT:Ops").map (fun r => r.phase) = .ok (some "Dev")
    ∧ (parseCommitMessage "ABC-1 CAT:Ops").map (fun r => r.phase) = .ok (some "Ops")
    ∧ (parseCommitMessage "ABC-1 PHASE:Dev").map (fun r => r.phase) = .ok (some "Dev")
    ∧ (parseCommitMessage "ABC-1").map (fun r => r.phase) = .ok none := by
  refine ⟨?_, ?_, ?_, ?_⟩ <;> with_unfolding_all rfl

/-- C9: READY normalization is a trimmed, case-insensitive lookup: values in
{y, yes, true, 1} give ready true, values in {n, no, false, 0} give ready
false, and any other non-empty value as well as an absent token gives ready
null without an error. -/
theorem c9_ready_normalization :
    (parseCommitMessage "ABC-1 READY:Yes").map (fun r => r.ready) = .ok (some true)
    ∧ (parseCommitMessage "ABC-1 READY:TrUe").map (fun r => r.ready) = .ok (some true)
    ∧ (parseCommitMessage "ABC-1 READY:1").map (fun r => r.ready) = .ok (some true)
    ∧ (parseCommitMessage "ABC-1 READY:y").map (fun r => r.ready) = .ok (some true)
    ∧ (parseCommitMessage "ABC-1 READY:No").map (fun r => r.ready) = .ok (some false)
    ∧ (parseCommitMessage "ABC-1 READY:FALSE").map (fun r => r.ready) = .ok (some false)
    ∧ (parseCommitMessage "ABC-1 READY:0").map (fun r => r.ready) = .ok (some false)
    ∧ (parseCommitMessage "ABC-1 READY:n").map (fun r => r.ready) = .ok (some false)
    ∧ (parseCommitMessage "ABC-1 READY:maybe").map (fun r => r.ready) = .ok none
    ∧ (parseCommitMessage "ABC-1").map (fun r => r.ready) = .ok none := by
  refine ⟨?_, ?_, ?_, ?_, ?_, ?_, ?_, ?_, ?_, ?_⟩ <;> with_unfolding_all rfl

/-- C10: when a LOG token carries an inline `@date` that passes validation
(time part positive, date part nonempty, pattern- and calendar-valid), the
result's logDate is the inline date and the standalone DATE token is ignored
entirely — `parseLog` does not depend on it at all, so even an invalid DATE
value raises no error. -/
theorem c10_inline_date_wins (raw : String) (tp rest : List Char) (q : ℚ)
    (dt dt2 : Option String)
    (hraw : raw.isEmpty = false)
    (hsplit : splitFirstAtChar '@' raw.data = some (tp, rest))
    (hq : parseLogHours tp = .ok q) (hpos : 0 < q)
    (hne : (trimList rest).isEmpty = false)
    (hvalid : validateYmd (trimList rest) = .ok ()) :
    (parseLog (some raw) dt = .ok (some q, some (String.mk (trimList rest)))
      ∧ parseLog (some raw) dt = parseLog (some raw) dt2)
    ∧ (parseCommitMessage "ABC-1 LOG:1h@2025-10-13 DATE:not-a-date").map
        (fun r => (r.logHours, r.logDate)) = .ok (some 1, some "2025-10-13")
    ∧ (parseCommitMessage "ABC-1 LOG:1h@2025-10-13 DATE:2025-02-30").map
        (fun r => (r.logHours, r.logDate)) = .ok (some 1, some "2025-10-13") := by
  refine ⟨?_, by with_unfolding_all rfl, by with_unfolding_all rfl⟩
  have h : ∀ d : Option String,
      parseLog (some raw) d = .ok (some q, some (String.mk (trimList rest))) := by
    intro d
    unfold parseLog
    simp only [hraw, hsplit, Bool.false_eq_true, if_false]
    unfold afterHours
    simp only [hq, hpos, decide_eq_true_eq, Bool.not_true, Bool.false_eq_true, if_false, hne,
      Bool.not_false, if_true, hvalid]
    simp
  exact ⟨h dt, (h dt).trans (h dt2).symm⟩

/-- C10 witness: the general statement applied to the LOG value
`"1h@2025-10-13"` next to an invalid DATE token value. -/
theorem c10_inline_date_wins_witness :
    parseLog (some "1h@2025-10-13") (some "not-a-date") = .ok (some 1, some "2025-10-13") :=
  ((c10_inline_date_wins "1h@2025-10-13" "1h".data "2025-10-13".data 1
    (some "not-a-date") none
    (by with_unfolding_all rfl) (by with_unfolding_all rfl) (by with_unfolding_all rfl)
    (by norm_num) (by with_unfolding_all rfl) (by with_unfolding_all rfl)).1).1
